import Mathlib

/-!
Shallow embedding of the jest-and-rtl-testing repository components that the
claims refer to, together with theorems settling each claim.

Conventions of the embedding:
- JavaScript numbers used as integers (counts, prices in cents, timestamps in
  milliseconds, status codes) are modelled as Int or Nat.
- Stateful React components become explicit state records with pure transition
  functions; a click or an effect execution is one transition.
- Promise rejections / thrown errors become Except results; nondeterministic
  inputs (Math.random outcomes, network responses) become explicit parameters.
-/

namespace JestRTL

/-! ## Counter (src/src/components/medium/Counter.tsx)

State is the `count` from useState; props are initialCount, min, max, step.
The three button handlers are `increment`, `decrement`, `reset`:
  increment: setCount(prevCount => Math.min(prevCount + step, max))
  decrement: setCount(prevCount => Math.max(prevCount - step, min))
  reset:     setCount(initialCount)
The increment button is enabled iff canIncrement = count < max, the decrement
button iff canDecrement = count > min. -/

structure CounterProps where
  initialCount : Int
  min : Int
  max : Int
  step : Int
deriving DecidableEq

def increment (p : CounterProps) (count : Int) : Int :=
  Min.min (count + p.step) p.max

def decrement (p : CounterProps) (count : Int) : Int :=
  Max.max (count - p.step) p.min

def canIncrement (p : CounterProps) (count : Int) : Bool :=
  count < p.max

def canDecrement (p : CounterProps) (count : Int) : Bool :=
  count > p.min

/-- A user interaction with one of the three Counter buttons. -/
inductive Click where
  | inc
  | dec
  | res
deriving DecidableEq

def applyClick (p : CounterProps) (c : Int) : Click → Int
  | Click.inc => increment p c
  | Click.dec => decrement p c
  | Click.res => p.initialCount

/-- The displayed count after a sequence of button clicks, starting from the
initial render (count = initialCount). -/
def runClicks (p : CounterProps) (clicks : List Click) : Int :=
  clicks.foldl (applyClick p) p.initialCount

/-! ## ItemList (src/unnamed/part_016)

Pure render: with an empty items array the component shows the emptyMessage
paragraph and no ul; otherwise the ul with one li per item and no empty
message; in both cases a count line with items.length. -/

structure ItemListView where
  title : String
  emptyText : Option String
  listItems : Option (List String)
  totalCount : Nat
deriving DecidableEq

def defaultItemListTitle : String := "Items"

def defaultEmptyMessage : String := "No items to display"

def renderItemList (items : List String) (title emptyMessage : String) : ItemListView :=
  { title := title
  , emptyText := if items.length = 0 then some emptyMessage else none
  , listItems := if items.length = 0 then none else some items
  , totalCount := items.length }

/-! ## String helpers shared by several embeddings

JavaScript String.prototype.includes modelled on character lists. -/

/-- first list is a prefix of the second, as an executable Bool. -/
def isPrefixList : List Char → List Char → Bool
  | [], _ => true
  | _ :: _, [] => false
  | a :: as, b :: bs => a == b && isPrefixList as bs

/-- hay.includes(sub): sub occurs contiguously inside hay. -/
def includesList (sub : List Char) : List Char → Bool
  | [] => isPrefixList sub []
  | c :: t => isPrefixList sub (c :: t) || includesList sub t

/-! ## userService (src/unnamed/part_019)

  async fetchUsers(url) performs fetch(url) once; if !response.ok it throws
  Error with message built from response.status, otherwise it returns the
  parsed JSON body.

The network is an explicit environment mapping a URL to its HTTP response
(ok flag, status code, and body already parsed as the user array); the
embedding returns the list of URLs requested together with the result. -/

structure WebUser where
  id : Int
  name : String
  email : String
  username : String
deriving DecidableEq

structure HttpResponse where
  ok : Bool
  status : Nat
  body : List WebUser

def fetchUsers (env : String → HttpResponse) (url : String) :
    List String × Except String (List WebUser) :=
  let resp := env url
  if resp.ok then ([url], Except.ok resp.body)
  else ([url], Except.error ("HTTP error! status: " ++ toString resp.status))

/-! ## ValidationForm.validateEmail (src/unnamed/part_007)

  const emailRegex = ^[^\s@]+@[^\s@]+\.[^\s@]+$ (a JavaScript regex literal);
  validateEmail returns Email is required for the empty string, the invalid
  message when the regex rejects, undefined otherwise.

Since the class [^\s@] excludes the at sign, the regex matches exactly when
the string splits at its first at sign into a nonempty left part of
non-whitespace non-at characters and a right part of such characters that
contains a dot at an internal position. -/

/-- membership in the character class [^\s@]. -/
def validChar (c : Char) : Bool := !c.isWhitespace && c != '@'

/-- the tail after the first element contains a dot that is not its last
element: used for the right part, which must split as m.n with m, n
nonempty. -/
def hasDotNotLast : List Char → Bool
  | [] => false
  | [_] => false
  | c :: rest => c == '.' || hasDotNotLast rest

def hasMidDot : List Char → Bool
  | [] => false
  | _ :: t => hasDotNotLast t

/-- the anchored regex test of ValidationForm. -/
def vfEmailRegexTest (s : List Char) : Bool :=
  match s.dropWhile (fun c => c != '@') with
  | '@' :: r =>
      let l := s.takeWhile (fun c => c != '@')
      !l.isEmpty && l.all validChar && !r.isEmpty && r.all validChar && hasMidDot r
  | _ => false

def validateEmail (email : String) : Option String :=
  if email = "" then some "Email is required"
  else if !vfEmailRegexTest email.data then some "Please enter a valid email address"
  else none

/-! ## ContactForm.validateForm, email branch (src/unnamed/part_009)

  if (!formData.email.trim()) error Email is required
  else if the unanchored regex \S+@\S+\.\S+ fails to match, error invalid.

The unanchored test succeeds iff some suffix of the string starts with a
match of the pattern; backtracking over the greedy \S+ segments becomes an
or over the two ways to continue at each character. -/

/-- membership in \S. -/
def nonspace (c : Char) : Bool := !c.isWhitespace

/-- after the literal dot: need one \S character (rest of the string is
unconstrained since the pattern is unanchored). -/
def cfAfterDot : List Char → Bool
  | [] => false
  | c :: _ => nonspace c

/-- having consumed at least one \S after the at sign, either see the literal
dot followed by \S, or consume one more \S. -/
def cfSeg2 : List Char → Bool
  | [] => false
  | c :: rest => (c == '.' && cfAfterDot rest) || (nonspace c && cfSeg2 rest)

/-- match \S+\.\S+ at the start of the list. -/
def cfAfterAt : List Char → Bool
  | [] => false
  | c :: rest => nonspace c && cfSeg2 rest

/-- having consumed at least one \S before the at sign, either see the literal
at sign and continue, or consume one more \S. -/
def cfSeg1 : List Char → Bool
  | [] => false
  | c :: rest => (c == '@' && cfAfterAt rest) || (nonspace c && cfSeg1 rest)

/-- match \S+@\S+\.\S+ at the start of the list. -/
def cfAtStart : List Char → Bool
  | [] => false
  | c :: rest => nonspace c && cfSeg1 rest

/-- the unanchored test: some suffix matches at its start. -/
def cfEmailTest : List Char → Bool
  | [] => false
  | c :: rest => cfAtStart (c :: rest) || cfEmailTest rest

/-- JavaScript String.prototype.trim: strip whitespace from both ends. -/
def trimList (l : List Char) : List Char :=
  ((l.dropWhile Char.isWhitespace).reverse.dropWhile Char.isWhitespace).reverse

/-- the email branch of ContactForm.validateForm. -/
def cfEmailError (email : String) : Option String :=
  if trimList email.data = [] then some "Email is required"
  else if !cfEmailTest email.data then some "Please enter a valid email address"
  else none

/-! ## searchAPI.searchProducts (src/unnamed/part_011)

Prices are modelled in cents (1299.99 dollars becomes 129999), so the decimal
literals of the source and the price-range comparisons are exact. The
simulated network delay is irrelevant to the returned value; the two failure
modes (random network error, aborted signal) become explicit Bool inputs. -/

/-- JavaScript String.prototype.toLowerCase on a character list. -/
def lowerList (l : List Char) : List Char := l.map Char.toLower

structure SearchResult where
  id : String
  title : String
  category : String
  price : Int
  description : String
  inStock : Bool
deriving DecidableEq

structure SearchFilters where
  category : String
  minPrice : Int
  maxPrice : Int
  inStockOnly : Bool
deriving DecidableEq

/-- The five hard-coded mock products, in source order. -/
def mockResults : List SearchResult :=
  [ SearchResult.mk "1" "Laptop Pro" "electronics" 129999 "High-performance laptop" true
  , SearchResult.mk "2" "Coffee Maker" "appliances" 8999 "Automatic coffee maker" false
  , SearchResult.mk "3" "Running Shoes" "sports" 12999 "Comfortable running shoes" true
  , SearchResult.mk "4" "Gaming Mouse" "electronics" 7999 "High-precision gaming mouse" true
  , SearchResult.mk "5" "Yoga Mat" "sports" 3999 "Non-slip yoga mat" true ]

/-- The filter predicate of searchProducts, clause for clause from the source:
matchesQuery, matchesCategory, matchesPriceRange, matchesStock. -/
def matchesItem (query : String) (f : SearchFilters) (item : SearchResult) : Bool :=
  let q := lowerList query.data
  (query == "" || includesList q (lowerList item.title.data)
     || includesList q (lowerList item.description.data))
  && (f.category == "" || item.category == f.category)
  && (decide (f.minPrice ≤ item.price) && decide (item.price ≤ f.maxPrice))
  && (!f.inStockOnly || item.inStock)

def searchProducts (failRandom aborted : Bool) (query : String) (f : SearchFilters) :
    Except String (List SearchResult) :=
  if failRandom then Except.error "Network error occurred"
  else if aborted then Except.error "Request aborted"
  else Except.ok (mockResults.filter (matchesItem query f))

/-- Modelled from the words of claim C7 (refinement side): the membership
condition the claim states for the returned list. -/
def specContainsCI (hay sub : String) : Prop :=
  includesList (lowerList sub.data) (lowerList hay.data) = true

/-- Modelled from the words of claim C7 (refinement side): a product belongs to
the result exactly when its title or description contains the query
case-insensitively (or the query is empty), its category equals the filter
category (or that is empty), its price lies in the closed price interval, and
it is in stock whenever inStockOnly is set. -/
def specMatches (query : String) (f : SearchFilters) (item : SearchResult) : Prop :=
  (query = "" ∨ specContainsCI item.title query ∨ specContainsCI item.description query)
  ∧ (f.category = "" ∨ item.category = f.category)
  ∧ (f.minPrice ≤ item.price ∧ item.price ≤ f.maxPrice)
  ∧ (f.inStockOnly = true → item.inStock = true)

/-! ## SearchFilter component state (src/unnamed/part_011)

State fields from useState: query, filters, results, loading, error,
searchCount. The initial filters are category empty, minPrice 0, maxPrice
10000 dollars (1000000 cents), inStockOnly false. One transition is either a
user edit (query or filters), the completion of one debouncedSearch run with
the outcome of its awaited searchProducts call, or the Clear All button. -/

def initialFilters : SearchFilters := SearchFilters.mk "" 0 1000000 false

structure SFState where
  query : String
  filters : SearchFilters
  results : List SearchResult
  error : Option String
  searchCount : Nat
  loading : Bool
deriving DecidableEq

def initSF : SFState := SFState.mk "" initialFilters [] none 0 false

/-- debouncedSearch(searchQuery, searchFilters) after its awaited
searchProducts call settled with the given outcome: empty (trimmed) query
clears the results and returns early; otherwise loading is set, the error
cleared, and on success the results are sliced to maxResults, searchCount
incremented and onResultsChange called with the sliced list; an error other
than Request aborted is stored. The second component is the argument passed
to onResultsChange, none when it is not called. -/
def debouncedSearchStep (maxResults : Nat) (s : SFState)
    (outcome : Except String (List SearchResult)) :
    SFState × Option (List SearchResult) :=
  if trimList s.query.data = [] then
    ({ s with results := [], loading := false }, none)
  else
    let s1 := { s with loading := true, error := none }
    match outcome with
    | Except.ok rs =>
        let limited := rs.take maxResults
        ({ s1 with results := limited, searchCount := s1.searchCount + 1, loading := false },
         some limited)
    | Except.error msg =>
        if msg = "Request aborted" then ({ s1 with loading := false }, none)
        else ({ s1 with error := some msg, loading := false }, none)

/-- handleClearAll resets query, filters, results, error and searchCount. -/
def handleClearAll (s : SFState) : SFState :=
  { s with query := "", filters := initialFilters, results := [], error := none,
           searchCount := 0 }

inductive SFEvent where
  | editQuery (q : String)
  | editFilters (f : SearchFilters)
  | searchComplete (outcome : Except String (List SearchResult))
  | clearAll

def sfStep (maxResults : Nat) (s : SFState) :
    SFEvent → SFState × Option (List SearchResult)
  | SFEvent.editQuery q => ({ s with query := q }, none)
  | SFEvent.editFilters f => ({ s with filters := f }, none)
  | SFEvent.searchComplete outcome => debouncedSearchStep maxResults s outcome
  | SFEvent.clearAll => (handleClearAll s, none)

/-- Run a sequence of events from a given state, collecting every list passed
to onResultsChange. -/
def sfTraceFrom (maxResults : Nat) (acc : SFState × List (List SearchResult)) :
    List SFEvent → SFState × List (List SearchResult)
  | [] => acc
  | e :: rest =>
      sfTraceFrom maxResults
        ((sfStep maxResults acc.1 e).1, acc.2 ++ ((sfStep maxResults acc.1 e).2).toList)
        rest

def sfTrace (maxResults : Nat) (events : List SFEvent) :
    SFState × List (List SearchResult) :=
  sfTraceFrom maxResults (initSF, []) events

/-! ## SearchFilter debounce timing (src/unnamed/part_011, debounce useEffect)

  useEffect(() => { const timeoutId = setTimeout(() =>
    debouncedSearch(query, filters), debounceMs);
    return () => clearTimeout(timeoutId); }, [query, filters, debounceMs, ...]);

Each edit of the query or filters re-runs the effect: the cleanup cancels the
previously scheduled timeout if it has not fired yet, and a new timeout is
scheduled at editTime + debounceMs. For a strictly increasing list of edit
times, the timer set by an edit fires exactly when the next edit comes no
sooner than debounceMs later (or there is no further edit); fireTimes lists
the times at which debouncedSearch actually runs. The simulated
searchProducts call happens only inside such a run (and only when the trimmed
query is nonempty), so every searchProducts execution time is a fireTimes
entry. -/

def fireTimes (d : Nat) : List Nat → List Nat
  | [] => []
  | [e] => [e + d]
  | e1 :: e2 :: rest => (if e1 + d ≤ e2 then [e1 + d] else []) ++ fireTimes d (e2 :: rest)

/-! ## AsyncDataFetcher (src/src/components/training-components/hard/AsyncDataFetcher.test.tsx)

fetchData(isRetry) with a failing mockFetch runs its catch branch:

  if (!isRetry && retryCount < retryAttempts) then
    setRetryCount(prev => prev + 1);
    setTimeout(() => fetchData(true), 1000 * Math.pow(2, retryCount));

where retryCount in the delay is the state value before the increment. On
success setRetryCount(0). The state tracked here is retryCount together with
the log of delays of the automatic retries scheduled so far; loading, data
and error are irrelevant to claims C1 and C3. -/

def defaultRetryAttempts : Nat := 3

structure FetcherState where
  retryCount : Nat
  scheduled : List Nat
deriving DecidableEq

/-- One execution of fetchData(isRetry) whose mockFetch attempt fails iff
fails is true. -/
def fetchAttempt (retryAttempts : Nat) (isRetry fails : Bool) (s : FetcherState) :
    FetcherState :=
  if fails then
    if !isRetry && decide (s.retryCount < retryAttempts) then
      FetcherState.mk (s.retryCount + 1) (s.scheduled ++ [1000 * 2 ^ s.retryCount])
    else s
  else FetcherState.mk 0 s.scheduled

/-- A user-initiated fetchData(false) followed by the automatic retry it
scheduled, if any; the retry runs as fetchData(true) and therefore never
schedules a further attempt. -/
def userFetch (retryAttempts : Nat) (s : FetcherState) (firstFails retryFails : Bool) :
    FetcherState :=
  let s1 := fetchAttempt retryAttempts false firstFails s
  if s1.scheduled.length = s.scheduled.length then s1
  else fetchAttempt retryAttempts true retryFails s1

/-! ## Error-recovery paths of the three fetching components

What each retry control does, read off the source handlers:
- UserList.handleRetry (src/unnamed/part_019 companion component,
  src/src/components/medium/Counter.tsx part): window.location.reload().
- SearchFilter.handleRetry (src/unnamed/part_011):
  debouncedSearch(query, filters) with the current state.
- AsyncDataFetcher.handleRetry: setRetryCount(0); fetchData(). -/

inductive RecoveryAction where
  | reloadPage
  | invokeSearch (query : String) (filters : SearchFilters)
  | invokeFetch (resetRetryCountFirst : Bool)
deriving DecidableEq

def userListHandleRetry : RecoveryAction := RecoveryAction.reloadPage

def searchFilterHandleRetry (s : SFState) : RecoveryAction :=
  RecoveryAction.invokeSearch s.query s.filters

def fetcherHandleRetry : RecoveryAction := RecoveryAction.invokeFetch true

end JestRTL

namespace JestRTL

/-- helper for Counter bounds: one click preserves min ≤ count ≤ max when the
step is nonnegative and the props are well formed. -/
theorem applyClick_bounds (p : CounterProps) (hstep : 0 ≤ p.step)
    (h1 : p.min ≤ p.initialCount) (h2 : p.initialCount ≤ p.max)
    (c : Int) (hc1 : p.min ≤ c) (hc2 : c ≤ p.max) (k : Click) :
    p.min ≤ applyClick p c k ∧ applyClick p c k ≤ p.max := by
  cases k <;> simp [applyClick, increment, decrement] <;> omega

/-- helper for Counter bounds: folding clicks preserves the bounds. -/
theorem foldl_clicks_bounds (p : CounterProps) (hstep : 0 ≤ p.step)
    (h1 : p.min ≤ p.initialCount) (h2 : p.initialCount ≤ p.max)
    (clicks : List Click) :
    ∀ c, p.min ≤ c → c ≤ p.max →
      p.min ≤ clicks.foldl (applyClick p) c ∧ clicks.foldl (applyClick p) c ≤ p.max := by
  induction clicks with
  | nil => intro c hc1 hc2; exact ⟨hc1, hc2⟩
  | cons k rest ih =>
    intro c hc1 hc2
    have h := applyClick_bounds p hstep h1 h2 c hc1 hc2 k
    exact ih (applyClick p c k) h.1 h.2

/-- A Counter whose step is negative, used to refute the unconditional bounds
invariant. -/
def cxCounter : CounterProps := CounterProps.mk 5 0 10 (-6)

/-- Claim C5, counterexample: with count 9, step 5, max 10 the increment button
is enabled, yet clicking it displays 10 = min(9 + 5, 10), not 9 + 5 = 14. -/
theorem counter_increment_claim_false :
    canIncrement (CounterProps.mk 9 0 10 5) 9 = true
    ∧ increment (CounterProps.mk 9 0 10 5) 9 = 10
    ∧ increment (CounterProps.mk 9 0 10 5) 9 ≠ 9 + 5 := by
  decide

/-- Claim C5 (amended): clicking increment makes the displayed count c + step
whenever c + step ≤ max; when max ≤ c + step it makes the displayed count max
(clamping). -/
theorem counter_increment_adds_step (p : CounterProps) (c : Int) :
    (c + p.step ≤ p.max → increment p c = c + p.step)
    ∧ (p.max ≤ c + p.step → increment p c = p.max) := by
  constructor <;> intro h <;> simp [increment] <;> omega

/-- Witness for counter_increment_adds_step at count 4, step 3, max 10. -/
theorem counter_increment_adds_step_w :
    (4 : Int) + 3 ≤ 10 ∧ increment (CounterProps.mk 0 0 10 3) 4 = 4 + 3 :=
  ⟨by decide, (counter_increment_adds_step (CounterProps.mk 0 0 10 3) 4).1 (by decide)⟩

/-- Claim C8, counterexample: a Counter rendered with initialCount 5, min 0,
max 10 and step -6 satisfies min ≤ initialCount ≤ max, yet a single increment
click drives the count to -1, below min. -/
theorem counter_bounds_claim_false :
    cxCounter.min ≤ cxCounter.initialCount
    ∧ cxCounter.initialCount ≤ cxCounter.max
    ∧ runClicks cxCounter [Click.inc] < cxCounter.min := by
  decide

/-- Claim C8 (amended): for every Counter rendered with min ≤ initialCount ≤ max
and a nonnegative step, after every sequence of increment, decrement and reset
clicks the count satisfies min ≤ count ≤ max; increment clamps at max and
decrement clamps at min. -/
theorem counter_bounds_invariant (p : CounterProps) (hstep : 0 ≤ p.step)
    (h1 : p.min ≤ p.initialCount) (h2 : p.initialCount ≤ p.max)
    (clicks : List Click) :
    p.min ≤ runClicks p clicks ∧ runClicks p clicks ≤ p.max := by
  exact foldl_clicks_bounds p hstep h1 h2 clicks p.initialCount h1 h2

/-- Witness for counter_bounds_invariant at initialCount 5, min 0, max 10,
step 1, clicking increment, increment, decrement. -/
theorem counter_bounds_invariant_w :
    (0 : Int) ≤ 1 ∧ (0 : Int) ≤ 5 ∧ (5 : Int) ≤ 10
    ∧ (0 ≤ runClicks (CounterProps.mk 5 0 10 1) [Click.inc, Click.inc, Click.dec]
       ∧ runClicks (CounterProps.mk 5 0 10 1) [Click.inc, Click.inc, Click.dec] ≤ 10) :=
  ⟨by decide, by decide, by decide,
   counter_bounds_invariant (CounterProps.mk 5 0 10 1) (by decide) (by decide) (by decide)
     [Click.inc, Click.inc, Click.dec]⟩

theorem isPrefixList_self (l : List Char) : isPrefixList l l = true := by
  induction l with
  | nil => rfl
  | cons a t ih => simp [isPrefixList, ih]

/-- a list includes any of its suffixes. -/
theorem includesList_append_right (sub pre : List Char) :
    includesList sub (pre ++ sub) = true := by
  induction pre with
  | nil =>
    cases sub with
    | nil => rfl
    | cons c t => simp [includesList, isPrefixList_self]
  | cons p pre ih => simp [includesList, ih]

/-- An always-ok test environment for fetchUsers. -/
def envOk : String → HttpResponse := fun _ => HttpResponse.mk true 200 []

/-- An always-404 test environment for fetchUsers. -/
def envErr : String → HttpResponse := fun _ => HttpResponse.mk false 404 []

/-- Claim C4: fetchUsers(url) performs exactly one HTTP GET to url; when the
response is ok it returns the parsed JSON body, and exactly when it is not ok
it throws an Error whose message mentions the HTTP status. -/
theorem fetchUsers_single_get (env : String → HttpResponse) (url : String) :
    (fetchUsers env url).1 = [url]
    ∧ ((env url).ok = true → (fetchUsers env url).2 = Except.ok (env url).body)
    ∧ ((env url).ok = false →
        (fetchUsers env url).2
          = Except.error ("HTTP error! status: " ++ toString (env url).status)
        ∧ includesList (toString (env url).status).data
            ("HTTP error! status: " ++ toString (env url).status).data = true) := by
  refine ⟨?_, ?_, ?_⟩
  · unfold fetchUsers
    cases h : (env url).ok <;> simp [h]
  · intro h
    simp [fetchUsers, h]
  · intro h
    refine ⟨by simp [fetchUsers, h], ?_⟩
    rw [String.data_append]
    exact includesList_append_right (toString (env url).status).data
      ("HTTP error! status: " : String).data

/-- Witness for fetchUsers_single_get on an ok and a 404 environment. -/
theorem fetchUsers_single_get_w :
    ((envOk "u").ok = true ∧ (fetchUsers envOk "u").2 = Except.ok (envOk "u").body)
    ∧ ((envErr "u").ok = false
        ∧ (fetchUsers envErr "u").2
            = Except.error ("HTTP error! status: " ++ toString (envErr "u").status)) :=
  ⟨⟨rfl, (fetchUsers_single_get envOk "u").2.1 rfl⟩,
   ⟨rfl, ((fetchUsers_single_get envErr "u").2.2 rfl).1⟩⟩

theorem cfSeg1_mem (l : List Char) (h : cfSeg1 l = true) : '@' ∈ l := by
  induction l with
  | nil => simp [cfSeg1] at h
  | cons c rest ih =>
    simp only [cfSeg1, Bool.or_eq_true, Bool.and_eq_true, beq_iff_eq] at h
    rcases h with ⟨h1, _⟩ | ⟨_, h2⟩
    · exact h1 ▸ List.mem_cons_self c rest
    · exact List.mem_cons_of_mem c (ih h2)

theorem cfAtStart_mem (l : List Char) (h : cfAtStart l = true) : '@' ∈ l := by
  cases l with
  | nil => simp [cfAtStart] at h
  | cons c rest =>
    simp only [cfAtStart, Bool.and_eq_true] at h
    exact List.mem_cons_of_mem c (cfSeg1_mem rest h.2)

theorem cfEmailTest_mem (l : List Char) (h : cfEmailTest l = true) : '@' ∈ l := by
  induction l with
  | nil => simp [cfEmailTest] at h
  | cons c rest ih =>
    simp only [cfEmailTest, Bool.or_eq_true] at h
    rcases h with h | h
    · exact cfAtStart_mem (c :: rest) h
    · exact List.mem_cons_of_mem c (ih h)

/-- Claim C6: every email string passing ValidationForm.validateEmail without
an error, and every email string passing the email branch of
ContactForm.validateForm without an error, contains the at character. -/
theorem validated_email_contains_at (email : String) :
    (validateEmail email = none → '@' ∈ email.data)
    ∧ (cfEmailError email = none → '@' ∈ email.data) := by
  constructor
  · intro h
    unfold validateEmail at h
    split at h
    · exact absurd h (by simp)
    · split at h
      · exact absurd h (by simp)
      · rename_i hregex
        have hregex : vfEmailRegexTest email.data = true := by
          revert hregex; cases vfEmailRegexTest email.data <;> simp
        unfold vfEmailRegexTest at hregex
        split at hregex
        · rename_i r heq
          have hmem : '@' ∈ email.data.dropWhile (fun c => c != '@') := by
            rw [heq]; exact List.mem_cons_self '@' r
          exact (List.dropWhile_suffix _).subset hmem
        · simp at hregex
  · intro h
    unfold cfEmailError at h
    split at h
    · exact absurd h (by simp)
    · split at h
      · exact absurd h (by simp)
      · rename_i htest
        have htest : cfEmailTest email.data = true := by
          revert htest; cases cfEmailTest email.data <;> simp
        exact cfEmailTest_mem email.data htest

/-- Witness for validated_email_contains_at at a concrete address. -/
theorem validated_email_contains_at_w :
    validateEmail "a@b.cd" = none ∧ cfEmailError "a@b.cd" = none
    ∧ '@' ∈ ("a@b.cd" : String).data :=
  ⟨by decide, by decide, (validated_email_contains_at "a@b.cd").1 (by decide)⟩

/-- bridging lemma for C7: the source filter predicate agrees with the
predicate stated by the claim. -/
theorem matchesItem_iff (query : String) (f : SearchFilters) (item : SearchResult) :
    matchesItem query f item = true ↔ specMatches query f item := by
  unfold matchesItem specMatches specContainsCI
  simp only [Bool.and_eq_true, Bool.or_eq_true, beq_iff_eq, decide_eq_true_eq,
    Bool.not_eq_true', or_assoc]
  constructor
  · rintro ⟨⟨⟨hq, hc⟩, hp⟩, hs⟩
    exact ⟨hq, hc, hp, fun hso => hs.resolve_left (by simp [hso])⟩
  · rintro ⟨hq, hc, hp, hs⟩
    refine ⟨⟨⟨hq, hc⟩, hp⟩, ?_⟩
    cases hso : f.inStockOnly
    · exact Or.inl rfl
    · exact Or.inr (hs hso)

/-- Claim C7: whenever searchProducts returns normally, the returned list is
exactly the subset of the five mock products, in order, whose title or
description contains the query case-insensitively (or the query is empty),
whose category equals the filter category (or that is empty), whose price
lies in the closed price interval, and which are in stock whenever
inStockOnly is set. -/
theorem searchProducts_spec (failRandom aborted : Bool) (query : String)
    (f : SearchFilters) (l : List SearchResult)
    (h : searchProducts failRandom aborted query f = Except.ok l) :
    l.Sublist mockResults
    ∧ ∀ item, item ∈ l ↔ item ∈ mockResults ∧ specMatches query f item := by
  unfold searchProducts at h
  split at h
  · exact absurd h (by simp)
  · split at h
    · exact absurd h (by simp)
    · have hl : l = mockResults.filter (matchesItem query f) := by
        injection h with h2
        exact h2.symm
      subst hl
      refine ⟨List.filter_sublist mockResults, ?_⟩
      intro item
      simp [List.mem_filter, matchesItem_iff]

/-- The first mock product, used in the witness below. -/
def laptopPro : SearchResult :=
  SearchResult.mk "1" "Laptop Pro" "electronics" 129999 "High-performance laptop" true

/-- Witness for searchProducts_spec: a successful query for laptop with the
initial filters. -/
theorem searchProducts_spec_w :
    (mockResults.filter (matchesItem "laptop" initialFilters)).Sublist mockResults
    ∧ (laptopPro ∈ mockResults.filter (matchesItem "laptop" initialFilters)
        ↔ laptopPro ∈ mockResults ∧ specMatches "laptop" initialFilters laptopPro) :=
  ⟨(searchProducts_spec false false "laptop" initialFilters _ rfl).1,
   (searchProducts_spec false false "laptop" initialFilters _ rfl).2 laptopPro⟩

/-- helper for C9: one SearchFilter transition keeps the stored results within
the bound and only emits bounded lists. -/
theorem sfStep_inv (m : Nat) (s : SFState) (hs : s.results.length ≤ m) (e : SFEvent) :
    (sfStep m s e).1.results.length ≤ m
    ∧ ∀ l ∈ ((sfStep m s e).2).toList, l.length ≤ m := by
  cases e with
  | editQuery q => exact ⟨hs, by simp [sfStep]⟩
  | editFilters f => exact ⟨hs, by simp [sfStep]⟩
  | clearAll => exact ⟨by simp [sfStep, handleClearAll], by simp [sfStep]⟩
  | searchComplete outcome =>
    simp only [sfStep]
    unfold debouncedSearchStep
    by_cases hq : trimList s.query.data = []
    · simp [hq]
    · cases outcome with
      | ok rs =>
        constructor
        · simp [hq, List.length_take]
        · intro l hl
          simp [hq] at hl
          simp [hl, List.length_take]
      | error msg =>
        by_cases hm : msg = "Request aborted"
        · simp [hq, hm, hs]
        · simp [hq, hm, hs]

/-- helper for C9: the per-step invariant propagated along a trace. -/
theorem sfTraceFrom_inv (m : Nat) (events : List SFEvent) :
    ∀ (s : SFState) (emitted : List (List SearchResult)),
      s.results.length ≤ m → (∀ l ∈ emitted, l.length ≤ m) →
      ((sfTraceFrom m (s, emitted) events).1.results.length ≤ m
       ∧ ∀ l ∈ (sfTraceFrom m (s, emitted) events).2, l.length ≤ m) := by
  induction events with
  | nil =>
    intro s emitted h1 h2
    exact ⟨h1, h2⟩
  | cons e rest ih =>
    intro s emitted h1 h2
    have hstep := sfStep_inv m s h1 e
    refine ih (sfStep m s e).1 (emitted ++ ((sfStep m s e).2).toList) hstep.1 ?_
    intro l hl
    rcases List.mem_append.mp hl with hl | hl
    · exact h2 l hl
    · exact hstep.2 l hl

/-- Claim C9: after every sequence of SearchFilter events starting at the
initial render, the results list held in state has length at most maxResults,
and so does every list passed to onResultsChange. -/
theorem searchFilter_results_bounded (m : Nat) (events : List SFEvent) :
    (sfTrace m events).1.results.length ≤ m
    ∧ ∀ l ∈ (sfTrace m events).2, l.length ≤ m :=
  sfTraceFrom_inv m events initSF [] (Nat.zero_le m)
    (fun l hl => absurd hl (List.not_mem_nil l))

/-- A concrete event sequence for the witness below: type a query, then one
search completes successfully with all five mock products. -/
def wEvents : List SFEvent :=
  [SFEvent.editQuery "laptop", SFEvent.searchComplete (Except.ok mockResults)]

/-- Witness for searchFilter_results_bounded at maxResults 2. -/
theorem searchFilter_results_bounded_w :
    (sfTrace 2 wEvents).1.results.length ≤ 2
    ∧ (mockResults.take 2).length ≤ 2 :=
  ⟨(searchFilter_results_bounded 2 wEvents).1,
   (searchFilter_results_bounded 2 wEvents).2 (mockResults.take 2) (by decide)⟩

/-- helper for C2: every fire time comes from an edit that no later edit
interrupts within the debounce interval. -/
theorem fireTimes_quiet (d : Nat) (edits : List Nat)
    (hs : edits.Pairwise (fun a b => a < b)) :
    ∀ f ∈ fireTimes d edits,
      ∃ e ∈ edits, f = e + d ∧ ∀ x ∈ edits, e < x → e + d ≤ x := by
  induction edits with
  | nil =>
    intro f hf
    simp [fireTimes] at hf
  | cons e1 rest ih =>
    cases rest with
    | nil =>
      intro f hf
      simp [fireTimes] at hf
      refine ⟨e1, List.mem_cons_self e1 [], hf, ?_⟩
      intro x hx hlt
      rcases List.mem_cons.mp hx with rfl | hx'
      · omega
      · exact absurd hx' (List.not_mem_nil x)
    | cons e2 rest2 =>
      intro f hf
      rw [fireTimes] at hf
      rcases List.mem_append.mp hf with h | h
      · by_cases hc : e1 + d ≤ e2
        · simp [hc] at h
          subst h
          refine ⟨e1, List.mem_cons_self e1 (e2 :: rest2), rfl, ?_⟩
          intro x hx hlt
          rcases List.mem_cons.mp hx with rfl | hx'
          · omega
          · rcases List.mem_cons.mp hx' with rfl | hx2
            · exact hc
            · have he2x : e2 < x := (List.pairwise_cons.mp (List.pairwise_cons.mp hs).2).1 x hx2
              omega
        · simp [hc] at h
      · obtain ⟨e, he, hfe, hq⟩ := ih (List.pairwise_cons.mp hs).2 f h
        refine ⟨e, List.mem_cons_of_mem e1 he, hfe, ?_⟩
        intro x hx hlt
        rcases List.mem_cons.mp hx with rfl | hx'
        · have : x < e := (List.pairwise_cons.mp hs).1 e he
          omega
        · exact hq x hx' hlt

/-- Claim C2: for a strictly increasing sequence of edit times, every run of
the debounced search happens exactly debounceMs after some edit that no
further edit follows within debounceMs; and an edit arriving before the
pending interval elapses cancels the pending run. -/
theorem searchFilter_debounce (d : Nat) (edits : List Nat)
    (hs : edits.Pairwise (fun a b => a < b)) :
    (∀ f ∈ fireTimes d edits,
       ∃ e ∈ edits, f = e + d ∧ ∀ x ∈ edits, e < x → e + d ≤ x)
    ∧ ∀ e1 ∈ edits, ∀ e2 ∈ edits, e1 < e2 → e2 < e1 + d →
        e1 + d ∉ fireTimes d edits := by
  refine ⟨fireTimes_quiet d edits hs, ?_⟩
  intro e1 h1 e2 h2 hlt hclose hmem
  obtain ⟨e, he, heq, hq⟩ := fireTimes_quiet d edits hs _ hmem
  have heq2 : e = e1 := by omega
  subst heq2
  have := hq e2 h2 hlt
  omega

/-- Witness for searchFilter_debounce: edits at 0, 100, 500 with debounceMs
300; the edit at 100 cancels the run pending from the edit at 0. -/
theorem searchFilter_debounce_w :
    (0 : Nat) + 300 ∉ fireTimes 300 [0, 100, 500] :=
  (searchFilter_debounce 300 [0, 100, 500] (by decide)).2
    0 (by decide) 100 (by decide) (by decide) (by decide)

/-- Claim C1: a failing user-initiated fetch with retryCount < retryAttempts
schedules exactly one automatic retry, after 1000 * 2 ^ retryCount
milliseconds; a retry itself never schedules another; and the number of
automatic retries a user-initiated fetch gives rise to never exceeds
retryAttempts. -/
theorem asyncFetcher_backoff (ra : Nat) (s : FetcherState) :
    (s.retryCount < ra →
       (fetchAttempt ra false true s).scheduled
         = s.scheduled ++ [1000 * 2 ^ s.retryCount])
    ∧ (∀ f, (fetchAttempt ra true f s).scheduled = s.scheduled)
    ∧ (∀ f1 f2, (userFetch ra s f1 f2).scheduled.length ≤ s.scheduled.length + ra) := by
  refine ⟨?_, ?_, ?_⟩
  · intro h
    simp [fetchAttempt, h]
  · intro f
    cases f <;> simp [fetchAttempt]
  · intro f1 f2
    cases f1 with
    | false => simp [userFetch, fetchAttempt]
    | true =>
      by_cases h : s.retryCount < ra
      · cases f2 <;> simp [userFetch, fetchAttempt, h] <;> omega
      · cases f2 <;> simp [userFetch, fetchAttempt, h]

/-- Witness for asyncFetcher_backoff at the default retryAttempts from a fresh
state. -/
theorem asyncFetcher_backoff_w :
    (0 : Nat) < 3
    ∧ (fetchAttempt 3 false true (FetcherState.mk 0 [])).scheduled
        = [] ++ [1000 * 2 ^ (0 : Nat)] :=
  ⟨by decide, (asyncFetcher_backoff 3 (FetcherState.mk 0 [])).1 (by decide)⟩

/-- Claim C3, counterexample: two components recover from errors without
reloading the page: SearchFilter re-invokes the search from its retry button,
AsyncDataFetcher re-invokes fetchData from its retry button and, on a failed
fresh fetch, automatically schedules a re-attempt. -/
theorem error_recovery_claim_false :
    searchFilterHandleRetry initSF ≠ RecoveryAction.reloadPage
    ∧ fetcherHandleRetry ≠ RecoveryAction.reloadPage
    ∧ (fetchAttempt 3 false true (FetcherState.mk 0 [])).scheduled ≠ [] := by
  decide

/-- Claim C3 (amended): error recovery stores the caught message in state and
offers a retry control, but only UserList reloads the page; SearchFilter
re-invokes debouncedSearch with the current query and filters, and
AsyncDataFetcher resets retryCount and re-invokes fetchData, besides
automatically scheduling one backoff re-attempt after a failed fresh fetch. -/
theorem error_recovery_amended (s : SFState) :
    userListHandleRetry = RecoveryAction.reloadPage
    ∧ searchFilterHandleRetry s = RecoveryAction.invokeSearch s.query s.filters
    ∧ fetcherHandleRetry = RecoveryAction.invokeFetch true
    ∧ (fetchAttempt defaultRetryAttempts false true (FetcherState.mk 0 [])).scheduled
        = [1000 * 2 ^ (0 : Nat)] :=
  ⟨rfl, rfl, rfl, by decide⟩

/-- Claim C10: an ItemList rendered with an empty items array shows the
emptyMessage placeholder (default text No items to display), renders no ul
list, and displays a total item count of 0. -/
theorem itemList_empty_render (title emptyMessage : String) :
    renderItemList [] title emptyMessage
      = ItemListView.mk title (some emptyMessage) none 0
    ∧ defaultEmptyMessage = "No items to display" :=
  ⟨rfl, rfl⟩

end JestRTL
